import Mathlib

/-!
Shallow embedding of `build_padded_ktx.py`, the padded-texture-atlas
pipeline of the repository: loading tiles, edge-extrusion padding built
from PIL `crop`/`resize`/`paste` calls, horizontal atlas assembly, and the
external `toktx` invocation.  Pure image operations become Lean functions
on an explicit pixel-function image type; the Python exceptions the script
can raise (Pillow's `ValueError` for a zero-size resize target, the
`IndexError` on `padded_tiles[0]` for an empty tile list) become an
`Except Err` result; file-system side effects of the top-level script are
recorded as an explicit effect trace.
-/

namespace PaddedKtx

/-- RGBA pixel, one value per channel.  The pipeline never does channel
arithmetic, so plain naturals suffice; Pillow's byte range is irrelevant
to the layout claims. -/
abbrev Pixel := Nat × Nat × Nat × Nat

/-- In-memory RGBA image (PIL `Image` object): dimensions plus a total
pixel function.  Only values at `x < width`, `y < height` are meaningful;
`Image.eqv` below compares exactly those. -/
structure Image where
  width : Nat
  height : Nat
  pix : Nat → Nat → Pixel

/-- Extensional image equality: same dimensions and the same pixel at
every in-range coordinate. -/
def Image.eqv (a b : Image) : Prop :=
  a.width = b.width ∧ a.height = b.height ∧
    ∀ x y, x < b.width → y < b.height → a.pix x y = b.pix x y

/-- `Image.new("RGBA", (w, h))`: a fresh, fully transparent image (PIL
zero-fills new RGBA buffers with `(0, 0, 0, 0)`). -/
def Image.new (w h : Nat) : Image :=
  ⟨w, h, fun _ _ => (0, 0, 0, 0)⟩

/-- `dst.paste(src, (ox, oy))`: copy `src` onto `dst` at offset
`(ox, oy)`.  Pixels outside the pasted rectangle keep their old value;
the paste is implicitly clipped to `dst` because the dimensions are
unchanged and only in-range pixels are meaningful. -/
def Image.paste (dst src : Image) (ox oy : Nat) : Image :=
  ⟨dst.width, dst.height, fun x y =>
    if ox ≤ x ∧ x < ox + src.width ∧ oy ≤ y ∧ y < oy + src.height then
      src.pix (x - ox) (y - oy)
    else
      dst.pix x y⟩

/-- `img.crop((l, t, r, b))`: the `(r-l) × (b-t)` sub-rectangle of `img`;
PIL zero-fills any part of the crop box lying outside the source. -/
def Image.crop (img : Image) (l t r b : Nat) : Image :=
  ⟨r - l, b - t, fun x y =>
    if l + x < img.width ∧ t + y < img.height then img.pix (l + x) (t + y)
    else (0, 0, 0, 0)⟩

/-- Python-level exceptions reachable in the script: Pillow raises
`ValueError` (message: height and width must be > 0) when a resize target
dimension is zero, and `padded_tiles[0]` raises `IndexError` on an empty
list. -/
inductive Err where
  | valueError
  | indexError
deriving DecidableEq

/-- Model of PIL `img.resize((w2, h2))` for the calls this script makes.
Pillow rejects a zero target dimension with `ValueError`.  Every resize in
the script keeps one dimension fixed and stretches the other from a
1-pixel strip; on such inputs every resampling filter degenerates: in an
unchanged dimension the kernel is the identity, and across a 1-sample
dimension all kernel taps clip to the single sample and renormalise to
total weight 1, so the strip is replicated byte-exactly.  The index map
`x * srcW / w2` realises both behaviours exactly on those inputs. -/
def Image.resize (img : Image) (w2 h2 : Nat) : Except Err Image :=
  if w2 = 0 ∨ h2 = 0 then .error .valueError
  else .ok ⟨w2, h2, fun x y => img.pix (x * img.width / w2) (y * img.height / h2)⟩

/-- One iteration of the padding loop of `build_padded_ktx.py` (lines
22-49): allocate a `(w+2P) × (h+2P)` buffer, paste the tile at `(P, P)`,
paste the four resized 1-pixel edge strips, then the four resized 1x1
corner blocks. -/
def pad (img : Image) (P : Nat) : Except Err Image := do
  let w := img.width
  let h := img.height
  let padded := (Image.new (w + P * 2) (h + P * 2)).paste img P P
  let left ← (img.crop 0 0 1 h).resize P h
  let right ← (img.crop (w - 1) 0 w h).resize P h
  let top ← (img.crop 0 0 w 1).resize w P
  let bottom ← (img.crop 0 (h - 1) w h).resize w P
  let padded := (((padded.paste left 0 P).paste right (P + w) P).paste top P 0).paste
    bottom P (P + h)
  let tl ← (img.crop 0 0 1 1).resize P P
  let tr ← (img.crop (w - 1) 0 w 1).resize P P
  let bl ← (img.crop 0 (h - 1) 1 h).resize P P
  let br ← (img.crop (w - 1) (h - 1) w h).resize P P
  return (((padded.paste tl 0 0).paste tr (P + w) 0).paste bl 0 (P + h)).paste
    br (P + w) (P + h)

/-- Payload image a successful `resize` produces (the replication map). -/
def resizedTo (img : Image) (w2 h2 : Nat) : Image :=
  ⟨w2, h2, fun x y => img.pix (x * img.width / w2) (y * img.height / h2)⟩

/-- Normal form of a successful `pad`: the nine pastes with each resize
replaced by its payload. -/
def padExpand (img : Image) (P : Nat) : Image :=
  (((((((((Image.new (img.width + P * 2) (img.height + P * 2)).paste img P P).paste
    (resizedTo (img.crop 0 0 1 img.height) P img.height) 0 P).paste
    (resizedTo (img.crop (img.width - 1) 0 img.width img.height) P img.height)
      (P + img.width) P).paste
    (resizedTo (img.crop 0 0 img.width 1) img.width P) P 0).paste
    (resizedTo (img.crop 0 (img.height - 1) img.width img.height) img.width P)
      P (P + img.height)).paste
    (resizedTo (img.crop 0 0 1 1) P P) 0 0).paste
    (resizedTo (img.crop (img.width - 1) 0 img.width 1) P P) (P + img.width) 0).paste
    (resizedTo (img.crop 0 (img.height - 1) 1 img.height) P P) 0 (P + img.height)).paste
    (resizedTo (img.crop (img.width - 1) (img.height - 1) img.width img.height) P P)
      (P + img.width) (P + img.height)

lemma resize_ok (img : Image) {w2 h2 : Nat} (hw : w2 ≠ 0) (hh : h2 ≠ 0) :
    img.resize w2 h2 = .ok (resizedTo img w2 h2) := by
  simp [Image.resize, resizedTo, hw, hh]

lemma pad_eq (img : Image) (P : Nat) (hP : P ≠ 0) (hw : img.width ≠ 0)
    (hh : img.height ≠ 0) : pad img P = .ok (padExpand img P) := by
  simp only [pad]
  rw [resize_ok _ hP hh, resize_ok _ hP hh, resize_ok _ hw hP, resize_ok _ hw hP,
    resize_ok _ hP hP, resize_ok _ hP hP, resize_ok _ hP hP, resize_ok _ hP hP]
  rfl

lemma paste_pix (d s : Image) (ox oy x y : Nat) :
    (d.paste s ox oy).pix x y =
      if ox ≤ x ∧ x < ox + s.width ∧ oy ≤ y ∧ y < oy + s.height then
        s.pix (x - ox) (y - oy)
      else d.pix x y := rfl

lemma crop_pix (img : Image) (l t r b x y : Nat) :
    (img.crop l t r b).pix x y =
      if l + x < img.width ∧ t + y < img.height then img.pix (l + x) (t + y)
      else (0, 0, 0, 0) := rfl

lemma resizedTo_pix (img : Image) (w2 h2 x y : Nat) :
    (resizedTo img w2 h2).pix x y =
      img.pix (x * img.width / w2) (y * img.height / h2) := rfl

@[simp] lemma paste_width (d s : Image) (ox oy : Nat) :
    (d.paste s ox oy).width = d.width := rfl

@[simp] lemma paste_height (d s : Image) (ox oy : Nat) :
    (d.paste s ox oy).height = d.height := rfl

@[simp] lemma crop_width (img : Image) (l t r b : Nat) :
    (img.crop l t r b).width = r - l := rfl

@[simp] lemma crop_height (img : Image) (l t r b : Nat) :
    (img.crop l t r b).height = b - t := rfl

@[simp] lemma resizedTo_width (img : Image) (w2 h2 : Nat) :
    (resizedTo img w2 h2).width = w2 := rfl

@[simp] lemma resizedTo_height (img : Image) (w2 h2 : Nat) :
    (resizedTo img w2 h2).height = h2 := rfl

@[simp] lemma new_width (w h : Nat) : (Image.new w h).width = w := rfl

@[simp] lemma new_height (w h : Nat) : (Image.new w h).height = h := rfl

@[simp] lemma new_pix (w h x y : Nat) : (Image.new w h).pix x y = (0, 0, 0, 0) := rfl

lemma padExpand_width (img : Image) (P : Nat) :
    (padExpand img P).width = img.width + P * 2 := rfl

lemma padExpand_height (img : Image) (P : Nat) :
    (padExpand img P).height = img.height + P * 2 := rfl

/-- Centre pixels of the padded buffer: none of the eight later pastes
touches the `[P, P+w) × [P, P+h)` rectangle, so pixel `(P+x, P+y)` is the
source pixel `(x, y)`. -/
lemma padExpand_pix_center (img : Image) (P x y : Nat)
    (hx : x < img.width) (hy : y < img.height) :
    (padExpand img P).pix (P + x) (P + y) = img.pix x y := by
  unfold padExpand
  simp only [paste_pix, resizedTo_width, resizedTo_height, crop_width, crop_height,
    paste_width, paste_height, new_width, new_height]
  split_ifs <;> try (exfalso; omega)
  simp only [Nat.add_sub_cancel_left]

/-- Top border strip (excluding corners): row `r < P`, column `P + c` holds
the source pixel `(c, 0)`. -/
lemma padExpand_pix_top (img : Image) (P c r : Nat)
    (hc : c < img.width) (hr : r < P) (hh : 1 ≤ img.height) :
    (padExpand img P).pix (P + c) r = img.pix c 0 := by
  unfold padExpand
  simp only [paste_pix, resizedTo_width, resizedTo_height, crop_width, crop_height,
    paste_width, paste_height, new_width, new_height]
  split_ifs <;> try (exfalso; omega)
  rw [resizedTo_pix]
  simp only [crop_width, crop_height, crop_pix]
  have h1 : (P + c - P) * (img.width - 0) / img.width = c := by
    rw [Nat.add_sub_cancel_left, Nat.sub_zero, Nat.mul_div_cancel _ (by omega)]
  have h2 : (r - 0) * (1 - 0) / P = 0 := by
    rw [Nat.sub_zero, Nat.sub_zero, Nat.mul_one]
    exact Nat.div_eq_of_lt hr
  rw [h1, h2, if_pos (by omega)]
  simp

/-- Bottom border strip (excluding corners): row `P + h + r` with `r < P`,
column `P + c` holds the source pixel `(c, h-1)`. -/
lemma padExpand_pix_bottom (img : Image) (P c r : Nat)
    (hc : c < img.width) (hr : r < P) (hh : 1 ≤ img.height) :
    (padExpand img P).pix (P + c) (P + img.height + r) = img.pix c (img.height - 1) := by
  unfold padExpand
  simp only [paste_pix, resizedTo_width, resizedTo_height, crop_width, crop_height,
    paste_width, paste_height, new_width, new_height]
  split_ifs <;> try (exfalso; omega)
  rw [resizedTo_pix]
  simp only [crop_width, crop_height, crop_pix]
  have h1 : (P + c - P) * (img.width - 0) / img.width = c := by
    rw [Nat.add_sub_cancel_left, Nat.sub_zero, Nat.mul_div_cancel _ (by omega)]
  have h2 : (P + img.height + r - (P + img.height)) *
      (img.height - (img.height - 1)) / P = 0 := by
    rw [Nat.add_sub_cancel_left, show img.height - (img.height - 1) = 1 from by omega,
      Nat.mul_one]
    exact Nat.div_eq_of_lt hr
  rw [h1, h2, if_pos (by omega)]
  simp

/-- Left border strip (excluding corners): column `r < P`, row `P + y`
holds the source pixel `(0, y)`. -/
lemma padExpand_pix_left (img : Image) (P r y : Nat)
    (hr : r < P) (hy : y < img.height) (hw : 1 ≤ img.width) :
    (padExpand img P).pix r (P + y) = img.pix 0 y := by
  unfold padExpand
  simp only [paste_pix, resizedTo_width, resizedTo_height, crop_width, crop_height,
    paste_width, paste_height, new_width, new_height]
  split_ifs <;> try (exfalso; omega)
  rw [resizedTo_pix]
  simp only [crop_width, crop_height, crop_pix]
  have h1 : (r - 0) * (1 - 0) / P = 0 := by
    rw [Nat.sub_zero, Nat.sub_zero, Nat.mul_one]
    exact Nat.div_eq_of_lt hr
  have h2 : (P + y - P) * (img.height - 0) / img.height = y := by
    rw [Nat.add_sub_cancel_left, Nat.sub_zero, Nat.mul_div_cancel _ (by omega)]
  rw [h1, h2, if_pos (by omega)]
  simp

/-- Right border strip (excluding corners): column `P + w + r` with
`r < P`, row `P + y` holds the source pixel `(w-1, y)`. -/
lemma padExpand_pix_right (img : Image) (P r y : Nat)
    (hr : r < P) (hy : y < img.height) (hw : 1 ≤ img.width) :
    (padExpand img P).pix (P + img.width + r) (P + y) = img.pix (img.width - 1) y := by
  unfold padExpand
  simp only [paste_pix, resizedTo_width, resizedTo_height, crop_width, crop_height,
    paste_width, paste_height, new_width, new_height]
  split_ifs <;> try (exfalso; omega)
  rw [resizedTo_pix]
  simp only [crop_width, crop_height, crop_pix]
  have h1 : (P + img.width + r - (P + img.width)) *
      (img.width - (img.width - 1)) / P = 0 := by
    rw [Nat.add_sub_cancel_left, show img.width - (img.width - 1) = 1 from by omega,
      Nat.mul_one]
    exact Nat.div_eq_of_lt hr
  have h2 : (P + y - P) * (img.height - 0) / img.height = y := by
    rw [Nat.add_sub_cancel_left, Nat.sub_zero, Nat.mul_div_cancel _ (by omega)]
  rw [h1, h2, if_pos (by omega)]
  simp

/-- Top-left corner block: every pixel `(cx, cy)` with `cx, cy < P` is the
source corner pixel `(0, 0)`. -/
lemma padExpand_pix_tl (img : Image) (P cx cy : Nat)
    (hcx : cx < P) (hcy : cy < P) (hw : 1 ≤ img.width) (hh : 1 ≤ img.height) :
    (padExpand img P).pix cx cy = img.pix 0 0 := by
  unfold padExpand
  simp only [paste_pix, resizedTo_width, resizedTo_height, crop_width, crop_height,
    paste_width, paste_height, new_width, new_height]
  split_ifs <;> try (exfalso; omega)
  rw [resizedTo_pix]
  simp only [crop_width, crop_height, crop_pix]
  have h1 : (cx - 0) * (1 - 0) / P = 0 := by
    rw [Nat.sub_zero, Nat.sub_zero, Nat.mul_one]
    exact Nat.div_eq_of_lt hcx
  have h2 : (cy - 0) * (1 - 0) / P = 0 := by
    rw [Nat.sub_zero, Nat.sub_zero, Nat.mul_one]
    exact Nat.div_eq_of_lt hcy
  rw [h1, h2, if_pos (by omega)]

/-- Top-right corner block at `(P + w, 0)`: constant copy of the source
corner pixel `(w-1, 0)`. -/
lemma padExpand_pix_tr (img : Image) (P cx cy : Nat)
    (hcx : cx < P) (hcy : cy < P) (hw : 1 ≤ img.width) (hh : 1 ≤ img.height) :
    (padExpand img P).pix (P + img.width + cx) cy = img.pix (img.width - 1) 0 := by
  unfold padExpand
  simp only [paste_pix, resizedTo_width, resizedTo_height, crop_width, crop_height,
    paste_width, paste_height, new_width, new_height]
  split_ifs <;> try (exfalso; omega)
  rw [resizedTo_pix]
  simp only [crop_width, crop_height, crop_pix]
  have h1 : (P + img.width + cx - (P + img.width)) *
      (img.width - (img.width - 1)) / P = 0 := by
    rw [Nat.add_sub_cancel_left, show img.width - (img.width - 1) = 1 from by omega,
      Nat.mul_one]
    exact Nat.div_eq_of_lt hcx
  have h2 : (cy - 0) * (1 - 0) / P = 0 := by
    rw [Nat.sub_zero, Nat.sub_zero, Nat.mul_one]
    exact Nat.div_eq_of_lt hcy
  rw [h1, h2, if_pos (by omega)]
  simp

/-- Bottom-left corner block at `(0, P + h)`: constant copy of the source
corner pixel `(0, h-1)`. -/
lemma padExpand_pix_bl (img : Image) (P cx cy : Nat)
    (hcx : cx < P) (hcy : cy < P) (hw : 1 ≤ img.width) (hh : 1 ≤ img.height) :
    (padExpand img P).pix cx (P + img.height + cy) = img.pix 0 (img.height - 1) := by
  unfold padExpand
  simp only [paste_pix, resizedTo_width, resizedTo_height, crop_width, crop_height,
    paste_width, paste_height, new_width, new_height]
  split_ifs <;> try (exfalso; omega)
  rw [resizedTo_pix]
  simp only [crop_width, crop_height, crop_pix]
  have h1 : (cx - 0) * (1 - 0) / P = 0 := by
    rw [Nat.sub_zero, Nat.sub_zero, Nat.mul_one]
    exact Nat.div_eq_of_lt hcx
  have h2 : (P + img.height + cy - (P + img.height)) *
      (img.height - (img.height - 1)) / P = 0 := by
    rw [Nat.add_sub_cancel_left, show img.height - (img.height - 1) = 1 from by omega,
      Nat.mul_one]
    exact Nat.div_eq_of_lt hcy
  rw [h1, h2, if_pos (by omega)]
  simp

/-- Bottom-right corner block at `(P + w, P + h)`: constant copy of the
source corner pixel `(w-1, h-1)`. -/
lemma padExpand_pix_br (img : Image) (P cx cy : Nat)
    (hcx : cx < P) (hcy : cy < P) (hw : 1 ≤ img.width) (hh : 1 ≤ img.height) :
    (padExpand img P).pix (P + img.width + cx) (P + img.height + cy) =
      img.pix (img.width - 1) (img.height - 1) := by
  unfold padExpand
  simp only [paste_pix, resizedTo_width, resizedTo_height, crop_width, crop_height,
    paste_width, paste_height, new_width, new_height]
  split_ifs <;> try (exfalso; omega)
  rw [resizedTo_pix]
  simp only [crop_width, crop_height, crop_pix]
  have h1 : (P + img.width + cx - (P + img.width)) *
      (img.width - (img.width - 1)) / P = 0 := by
    rw [Nat.add_sub_cancel_left, show img.width - (img.width - 1) = 1 from by omega,
      Nat.mul_one]
    exact Nat.div_eq_of_lt hcx
  have h2 : (P + img.height + cy - (P + img.height)) *
      (img.height - (img.height - 1)) / P = 0 := by
    rw [Nat.add_sub_cancel_left, show img.height - (img.height - 1) = 1 from by omega,
      Nat.mul_one]
    exact Nat.div_eq_of_lt hcy
  rw [h1, h2, if_pos (by omega)]
  simp

/-- The paste loop of the atlas assembly (lines 61-64): paste each tile at
the running offset `x`, then advance `x` by `pw`, the width of the FIRST
padded tile, regardless of the pasted tile's own width. -/
def pasteTiles (pw : Nat) : Image → Nat → List Image → Image
  | atlas, _, [] => atlas
  | atlas, x, t :: ts => pasteTiles pw (atlas.paste t x 0) (x + pw) ts

/-- Atlas assembly (lines 57-64): `pw, ph = padded_tiles[0].size` raises
`IndexError` on an empty list; otherwise the atlas is a fresh
`(pw * len(padded_tiles)) × ph` image filled by the paste loop. -/
def assemble : List Image → Except Err Image
  | [] => .error .indexError
  | t0 :: rest =>
    .ok (pasteTiles t0.width
      (Image.new (t0.width * (t0 :: rest).length) t0.height) 0 (t0 :: rest))

lemma pasteTiles_width (pw : Nat) (ts : List Image) :
    ∀ (atlas : Image) (x : Nat), (pasteTiles pw atlas x ts).width = atlas.width := by
  induction ts with
  | nil => intro atlas x; rfl
  | cons t ts ih =>
    intro atlas x
    simp only [pasteTiles]
    rw [ih]
    rfl

lemma pasteTiles_height (pw : Nat) (ts : List Image) :
    ∀ (atlas : Image) (x : Nat), (pasteTiles pw atlas x ts).height = atlas.height := by
  induction ts with
  | nil => intro atlas x; rfl
  | cons t ts ih =>
    intro atlas x
    simp only [pasteTiles]
    rw [ih]
    rfl

/-- Pixels strictly left of the running offset are never touched by the
remaining pastes. -/
lemma pasteTiles_pix_untouched (pw : Nat) (ts : List Image) :
    ∀ (atlas : Image) (x px py : Nat), px < x →
      (pasteTiles pw atlas x ts).pix px py = atlas.pix px py := by
  induction ts with
  | nil => intro atlas x px py _; rfl
  | cons t ts ih =>
    intro atlas x px py hpx
    simp only [pasteTiles]
    rw [ih _ _ _ _ (by omega), paste_pix, if_neg (by omega)]

/-- Content placement: tile `i` of the loop is visible at horizontal
offset `x + i * pw`, on the columns where it is not overwritten by the
next paste (`px < pw`) and within its own extent (`px < width`,
`py < height`). -/
lemma pasteTiles_pix_get (pw : Nat) (ts : List Image) :
    ∀ (atlas : Image) (x i : Nat) (hi : i < ts.length) (px py : Nat),
      px < pw → px < (ts.get ⟨i, hi⟩).width → py < (ts.get ⟨i, hi⟩).height →
      (pasteTiles pw atlas x ts).pix (x + i * pw + px) py =
        (ts.get ⟨i, hi⟩).pix px py := by
  induction ts with
  | nil =>
    intro _ _ i hi
    exact absurd hi (by simp)
  | cons t ts ih =>
    intro atlas x i hi px py h1 h2 h3
    cases i with
    | zero =>
      simp only [List.get] at h2 h3 ⊢
      simp only [pasteTiles]
      have hc : x + 0 * pw + px = x + px := by ring
      rw [hc, pasteTiles_pix_untouched _ _ _ _ _ _ (by omega), paste_pix,
        if_pos (by omega)]
      simp [Nat.add_sub_cancel_left]
    | succ j =>
      have hj : j < ts.length := by simpa using hi
      simp only [List.get] at h2 h3 ⊢
      simp only [pasteTiles]
      have := ih (atlas.paste t x 0) (x + pw) j hj px py h1 h2 h3
      rw [show x + (j + 1) * pw + px = x + pw + j * pw + px from by ring]
      exact this

/-- Gap pixels: when no tile is wider than the slot width `pw`, a column
`px` of slot `i` beyond tile `i`'s own width (`width ≤ px < pw`) is never
written, at any row. -/
lemma pasteTiles_pix_gap (pw : Nat) (ts : List Image) :
    ∀ (atlas : Image) (x i : Nat) (hi : i < ts.length) (px py : Nat),
      (∀ t ∈ ts, t.width ≤ pw) →
      (ts.get ⟨i, hi⟩).width ≤ px → px < pw →
      (pasteTiles pw atlas x ts).pix (x + i * pw + px) py =
        atlas.pix (x + i * pw + px) py := by
  induction ts with
  | nil =>
    intro _ _ i hi
    exact absurd hi (by simp)
  | cons t ts ih =>
    intro atlas x i hi px py hall h1 h2
    cases i with
    | zero =>
      simp only [List.get] at h1
      simp only [pasteTiles]
      rw [pasteTiles_pix_untouched _ _ _ _ _ _ (by omega), paste_pix,
        if_neg (by omega)]
    | succ j =>
      have hj : j < ts.length := by simpa using hi
      simp only [List.get] at h1
      simp only [pasteTiles]
      have ht : t.width ≤ pw := hall t (by simp)
      have := ih (atlas.paste t x 0) (x + pw) j hj px py
        (fun u hu => hall u (by simp [hu])) h1 h2
      rw [show x + (j + 1) * pw + px = x + pw + j * pw + px from by ring, this,
        paste_pix, if_neg (by omega)]

/-- Sum of the widths of the first `i` tiles when all widths equal `pw`. -/
lemma sum_width_take (pw : Nat) (l : List Image) :
    (∀ t ∈ l, t.width = pw) → ∀ i, i ≤ l.length →
      ((l.take i).map Image.width).sum = i * pw := by
  induction l with
  | nil =>
    intro _ i hi
    have : i = 0 := by simpa using hi
    simp [this]
  | cons t ts ih =>
    intro hall i hi
    cases i with
    | zero => simp
    | succ j =>
      simp only [List.take_succ_cons, List.map_cons, List.sum_cons]
      rw [ih (fun u hu => hall u (by simp [hu])) j (by simpa using hi),
        hall t (by simp)]
      ring

/-- Python-observable file-system and process effects of the script, in
program order: `os.makedirs(OUT_PADDED_DIR)` (line 16), the per-tile
`padded.save` calls (line 52, argument is the tile index `i` of
`tile_i.png`), `atlas.save(ATLAS_PNG)` (line 66) and the `toktx`
subprocess (line 80).  Reads (`Image.open`) are not effects. -/
inductive Effect where
  | makeOutDir
  | savePaddedTile (i : Nat)
  | saveAtlas
  | runTool (c : List String)
deriving DecidableEq

def MAX_MIPS : String := "3"

def TILES : List String :=
  ["assets/source_tiles/dirt.png", "assets/source_tiles/grass.png"]

def PAD : Nat := 2

def OUT_PADDED_DIR : String := "assets/padded_tiles"

def ATLAS_PNG : String := "assets/texture_atlas_padded.png"

def ATLAS_KTX2 : String := "assets/texture_atlas.ktx2"

def TOKTX : String := "C:\\Program Files\\KTX-Software\\bin\\toktx.exe"

/-- The argument list of lines 72-78, exactly as constructed: executable,
`--genmipmap` (full mip-chain generation), `--t2` (KTX2 container
version), output path, single atlas input path.  `MAX_MIPS` is defined by
the script but never used, so no `--levels` flag limits the chain. -/
def cmd : List String := [TOKTX, "--genmipmap", "--t2", ATLAS_KTX2, ATLAS_PNG]

/-- Error `subprocess.run(cmd, check=True)` raises on a non-zero exit
code, carrying the exit code and the full command line. -/
structure CalledProcessError where
  returncode : Int
  cmd : List String
deriving DecidableEq

/-- `subprocess.run(c, check)` at a given subprocess exit code: with
`check` set, a non-zero exit code raises `CalledProcessError(returncode,
cmd)`; exit code 0 (or `check=False`) returns normally.  The call is
synchronous, so the exit code is known when it returns. -/
def subprocessRun (c : List String) (check : Bool) (returncode : Int) :
    Except CalledProcessError Unit :=
  if check = true ∧ returncode ≠ 0 then .error ⟨returncode, c⟩ else .ok ()

/-- The padding loop (lines 20-53): pads tile `i`, saves it as
`tile_i.png`, and appends it to `padded_tiles`; a padding failure aborts
the loop, keeping the effects of the completed iterations. -/
def padAndSave (P : Nat) : Nat → List Image → List Effect × Except Err (List Image)
  | _, [] => ([], .ok [])
  | i, t :: ts =>
    match pad t P with
    | .error e => ([], .error e)
    | .ok p =>
      match padAndSave P (i + 1) ts with
      | (fx, .error e) => (Effect.savePaddedTile i :: fx, .error e)
      | (fx, .ok ps) => (Effect.savePaddedTile i :: fx, .ok (p :: ps))

/-- Whole-script effect trace and result for a given decoded tile list and
padding width: `os.makedirs` runs first (line 16), then the padding loop,
then atlas assembly (which indexes `padded_tiles[0]`), then the atlas save
and the `toktx` call.  An uncaught exception aborts the script, keeping
the effects performed so far. -/
def script (tiles : List Image) (P : Nat) : List Effect × Except Err Image :=
  match padAndSave P 0 tiles with
  | (fx, .error e) => (Effect.makeOutDir :: fx, .error e)
  | (fx, .ok padded) =>
    match assemble padded with
    | .error e => (Effect.makeOutDir :: fx, .error e)
    | .ok atlas =>
      (Effect.makeOutDir :: fx ++ [Effect.saveAtlas, Effect.runTool cmd], .ok atlas)

/-- Concrete 2×2 tile with distinct pixels. -/
def t22 : Image := ⟨2, 2, fun x y => (x, y, 7, 255)⟩

/-- Concrete 3×3 tile with distinct pixels. -/
def t33 : Image := ⟨3, 3, fun x y => (x + 1, y + 1, 0, 255)⟩

/-- Second concrete 2×2 tile, same size as `t22`, different content. -/
def u22 : Image := ⟨2, 2, fun x y => (9, x + y, 3, 255)⟩

/-- Concrete 4×6 tile. -/
def c46 : Image := ⟨4, 6, fun x y => (x, y, 1, 255)⟩

/-- Concrete 6×6 tile. -/
def c66 : Image := ⟨6, 6, fun x y => (x, y, 2, 255)⟩

/-- Concrete 3×2 tile. -/
def wA : Image := ⟨3, 2, fun x y => (x, y, 4, 255)⟩

/-- Concrete 2×2 constant tile, narrower than `wA`. -/
def wB : Image := ⟨2, 2, fun _ _ => (8, 8, 8, 8)⟩

/-- Concrete 2×4 tile (taller than `t22`). -/
def m24 : Image := ⟨2, 4, fun x y => (x, y, 6, 255)⟩

/-- Concrete 5×2 tile (wide and short). -/
def t52 : Image := ⟨5, 2, fun x y => (x, y, 5, 255)⟩

/-- Shared core for the centre/roundtrip claims: for a non-empty tile and
non-zero padding, `pad` succeeds, the output is `(w+2P) × (h+2P)`, and
cropping the centre back out reproduces the tile exactly. -/
lemma pad_roundtrip_aux (T : Image) (P : Nat) (hP : P ≠ 0)
    (hw : T.width ≠ 0) (hh : T.height ≠ 0) :
    pad T P = .ok (padExpand T P) ∧
    (padExpand T P).width = T.width + 2 * P ∧
    (padExpand T P).height = T.height + 2 * P ∧
    Image.eqv ((padExpand T P).crop P P (P + T.width) (P + T.height)) T := by
  refine ⟨pad_eq T P hP hw hh, by rw [padExpand_width]; ring,
    by rw [padExpand_height]; ring, ?_, ?_, ?_⟩
  · rw [crop_width]; omega
  · rw [crop_height]; omega
  · intro x y hx hy
    rw [crop_pix, if_pos (by simp only [padExpand_width, padExpand_height]; omega)]
    exact padExpand_pix_center T P x y hx hy

/-- C1 (amended: `1 ≤ P`, not `0 ≤ P`): for every tile `T` of size `W×H`
and padding `P` with `1 ≤ P < min(W,H)`, `pad(T,P)` returns a
`(W+2P)×(H+2P)` buffer whose central `W×H` region at offset `(P,P)` is
byte-identical to `T`; cropping that region back out reproduces `T`
exactly — the edge and corner pastes never overwrite the centre.  (At
`P = 0`, which the claim's range admits, `pad` instead fails; see the
counterexample.) -/
theorem pad_center_roundtrip (T : Image) (P : Nat) (hP : 1 ≤ P)
    (hPm : P < min T.width T.height) :
    ∃ out, pad T P = .ok out ∧ out.width = T.width + 2 * P ∧
      out.height = T.height + 2 * P ∧
      Image.eqv (out.crop P P (P + T.width) (P + T.height)) T := by
  obtain ⟨h1, h2, h3, h4⟩ := pad_roundtrip_aux T P (by omega) (by omega) (by omega)
  exact ⟨padExpand T P, h1, h2, h3, h4⟩

/-- Witness for C1 at the concrete 3×3 tile with `P = 1`. -/
theorem pad_center_roundtrip_witness :
    ∃ out, pad t33 1 = .ok out ∧ out.width = t33.width + 2 * 1 ∧
      out.height = t33.height + 2 * 1 ∧
      Image.eqv (out.crop 1 1 (1 + t33.width) (1 + t33.height)) t33 :=
  pad_center_roundtrip t33 1 (by decide) (by decide)

/-- C1 counterexample: `P = 0` lies inside the claimed range
`0 ≤ P < min(W,H)` for the 3×3 tile, yet `pad` raises `ValueError` (the
1-pixel edge strips are resized to a zero target dimension, which Pillow
rejects) instead of returning any buffer. -/
theorem pad_zero_in_claimed_range_fails :
    0 < min t33.width t33.height ∧ pad t33 0 = .error .valueError :=
  ⟨by decide, rfl⟩

/-- C2: for every source tile and `P ≥ 1`, each `P`-wide border strip of
the padded output (corners excluded) replicates the adjacent source edge
row/column byte-exactly: top rows `r < P` copy row 0, bottom rows copy row
`h-1`, left columns copy column 0, right columns copy column `w-1` — even
though the implementation produces the strips by resampling 1-pixel-wide
crops. -/
theorem pad_edges_replicate (T : Image) (P : Nat) (hP : 1 ≤ P)
    (hw : 1 ≤ T.width) (hh : 1 ≤ T.height) :
    ∃ out, pad T P = .ok out ∧
      (∀ r c, r < P → c < T.width → out.pix (P + c) r = T.pix c 0) ∧
      (∀ r c, r < P → c < T.width →
        out.pix (P + c) (P + T.height + r) = T.pix c (T.height - 1)) ∧
      (∀ r y, r < P → y < T.height → out.pix r (P + y) = T.pix 0 y) ∧
      (∀ r y, r < P → y < T.height →
        out.pix (P + T.width + r) (P + y) = T.pix (T.width - 1) y) := by
  refine ⟨padExpand T P, pad_eq T P (by omega) (by omega) (by omega), ?_, ?_, ?_, ?_⟩
  · intro r c h1 h2
    exact padExpand_pix_top T P c r h2 h1 hh
  · intro r c h1 h2
    exact padExpand_pix_bottom T P c r h2 h1 hh
  · intro r y h1 h2
    exact padExpand_pix_left T P r y h1 h2 hw
  · intro r y h1 h2
    exact padExpand_pix_right T P r y h1 h2 hw

/-- Witness for C2 at the concrete 2×2 tile with `P = 2`. -/
theorem pad_edges_replicate_witness :
    ∃ out, pad t22 2 = .ok out ∧
      (∀ r c, r < 2 → c < t22.width → out.pix (2 + c) r = t22.pix c 0) ∧
      (∀ r c, r < 2 → c < t22.width →
        out.pix (2 + c) (2 + t22.height + r) = t22.pix c (t22.height - 1)) ∧
      (∀ r y, r < 2 → y < t22.height → out.pix r (2 + y) = t22.pix 0 y) ∧
      (∀ r y, r < 2 → y < t22.height →
        out.pix (2 + t22.width + r) (2 + y) = t22.pix (t22.width - 1) y) :=
  pad_edges_replicate t22 2 (by decide) (by decide) (by decide)

/-- C4 counterexample: `P = 5` is at least both dimensions of the 2×2
tile, so the claim calls it invalid and demands a `ConfigError`; the code
performs no validation and `pad` succeeds, returning a well-formed 12×12
buffer. -/
theorem pad_oversized_no_error :
    pad t22 5 = .ok (padExpand t22 5) ∧ (padExpand t22 5).width = 12 ∧
      (padExpand t22 5).height = 12 :=
  ⟨pad_eq t22 5 (by decide) (by decide) (by decide), rfl, rfl⟩

/-- C4 (amended): the reference code performs no padding-width validation
and defines no `ConfigError`.  For `P ≥ W` or `P ≥ H` — the whole range
the claim calls invalid — the crops are still 1-pixel strips, nothing
degenerates, and `pad` succeeds with the correct geometry and an intact
centre. -/
theorem pad_invalid_p_succeeds (T : Image) (P : Nat) (hw : 1 ≤ T.width)
    (hh : 1 ≤ T.height) (hP : T.width ≤ P ∨ T.height ≤ P) :
    ∃ out, pad T P = .ok out ∧ out.width = T.width + 2 * P ∧
      out.height = T.height + 2 * P ∧
      Image.eqv (out.crop P P (P + T.width) (P + T.height)) T := by
  obtain ⟨h1, h2, h3, h4⟩ := pad_roundtrip_aux T P (by omega) (by omega) (by omega)
  exact ⟨padExpand T P, h1, h2, h3, h4⟩

/-- Witness for C4's amended statement at the 5×2 tile with `P = 3`: the
`P ≥ H` but `P < W` case. -/
theorem pad_invalid_p_succeeds_witness :
    ∃ out, pad t52 3 = .ok out ∧ out.width = t52.width + 2 * 3 ∧
      out.height = t52.height + 2 * 3 ∧
      Image.eqv (out.crop 3 3 (3 + t52.width) (3 + t52.height)) t52 :=
  pad_invalid_p_succeeds t52 3 (by decide) (by decide) (by decide)

/-- C6: for every source tile and `P ≥ 1`, each of the four `P×P` corner
blocks of the padded output, placed at `(0,0)`, `(P+W,0)`, `(0,P+H)` and
`(P+W,P+H)`, is a constant block equal to the corresponding 1×1 source
corner pixel. -/
theorem pad_corners_replicate (T : Image) (P : Nat) (hP : 1 ≤ P)
    (hw : 1 ≤ T.width) (hh : 1 ≤ T.height) :
    ∃ out, pad T P = .ok out ∧
      (∀ cx cy, cx < P → cy < P → out.pix cx cy = T.pix 0 0) ∧
      (∀ cx cy, cx < P → cy < P →
        out.pix (P + T.width + cx) cy = T.pix (T.width - 1) 0) ∧
      (∀ cx cy, cx < P → cy < P →
        out.pix cx (P + T.height + cy) = T.pix 0 (T.height - 1)) ∧
      (∀ cx cy, cx < P → cy < P →
        out.pix (P + T.width + cx) (P + T.height + cy) =
          T.pix (T.width - 1) (T.height - 1)) := by
  refine ⟨padExpand T P, pad_eq T P (by omega) (by omega) (by omega), ?_, ?_, ?_, ?_⟩
  · intro cx cy h1 h2
    exact padExpand_pix_tl T P cx cy h1 h2 hw hh
  · intro cx cy h1 h2
    exact padExpand_pix_tr T P cx cy h1 h2 hw hh
  · intro cx cy h1 h2
    exact padExpand_pix_bl T P cx cy h1 h2 hw hh
  · intro cx cy h1 h2
    exact padExpand_pix_br T P cx cy h1 h2 hw hh

/-- Witness for C6 at the concrete 2×2 tile with `P = 2`. -/
theorem pad_corners_replicate_witness :
    ∃ out, pad t22 2 = .ok out ∧
      (∀ cx cy, cx < 2 → cy < 2 → out.pix cx cy = t22.pix 0 0) ∧
      (∀ cx cy, cx < 2 → cy < 2 →
        out.pix (2 + t22.width + cx) cy = t22.pix (t22.width - 1) 0) ∧
      (∀ cx cy, cx < 2 → cy < 2 →
        out.pix cx (2 + t22.height + cy) = t22.pix 0 (t22.height - 1)) ∧
      (∀ cx cy, cx < 2 → cy < 2 →
        out.pix (2 + t22.width + cx) (2 + t22.height + cy) =
          t22.pix (t22.width - 1) (t22.height - 1)) :=
  pad_corners_replicate t22 2 (by decide) (by decide) (by decide)

/-- C8 counterexample: at `P = 0` the claim demands `pad(T,0) = T`; on the
concrete 2×2 tile the code instead fails, because the left edge strip is
resized to the zero target size `(0, h)` and Pillow rejects that with
`ValueError` before any corner handling. -/
theorem pad_zero_concrete_raises : pad t22 0 = .error .valueError := rfl

/-- C8 (amended): for every tile `T`, `pad(T,0)` does not return `T` — it
raises `ValueError` at the first border-strip resize, whose target size
`(P, h) = (0, h)` is rejected by Pillow, so no output buffer is produced
at all. -/
theorem pad_zero_raises (T : Image) : pad T 0 = .error .valueError := by
  simp only [pad]
  rw [show (T.crop 0 0 1 T.height).resize 0 T.height = .error .valueError from by
    simp [Image.resize]]
  rfl

/-- C3 counterexample: on two padded tiles of widths 4 and 6, the atlas
width is `4 * 2 = 8` — twice the FIRST tile's width — not the claimed sum
of widths `10`. -/
theorem assemble_width_not_sum :
    ∃ a, assemble [c46, c66] = .ok a ∧ a.width = 8 ∧
      ([c46, c66].map Image.width).sum = 10 ∧
      a.width ≠ ([c46, c66].map Image.width).sum :=
  ⟨_, rfl, by decide, by decide, by decide⟩

/-- C3 (amended: all tiles sharing the first tile's width): under that
hypothesis — which the reference layout silently assumes — the atlas width
equals the sum of the tile widths, the height equals the first tile's
height, and tile `N`'s content sits at horizontal offset equal to the sum
of the widths of tiles `0..N-1`, laid left to right with no gaps in input
order.  Without the hypothesis the width is `count × firstWidth`, not the
sum (see the counterexample). -/
theorem assemble_uniform_width_layout (t0 : Image) (rest : List Image)
    (huw : ∀ t ∈ t0 :: rest, t.width = t0.width) :
    ∃ a, assemble (t0 :: rest) = .ok a ∧
      a.width = ((t0 :: rest).map Image.width).sum ∧
      a.height = t0.height ∧
      ∀ i (hi : i < (t0 :: rest).length) (px py : Nat),
        px < ((t0 :: rest).get ⟨i, hi⟩).width →
        py < ((t0 :: rest).get ⟨i, hi⟩).height →
        a.pix ((((t0 :: rest).take i).map Image.width).sum + px) py =
          ((t0 :: rest).get ⟨i, hi⟩).pix px py := by
  refine ⟨_, rfl, ?_, ?_, ?_⟩
  · rw [pasteTiles_width, new_width]
    have hfull : (((t0 :: rest).take (t0 :: rest).length).map Image.width).sum
        = (t0 :: rest).length * t0.width :=
      sum_width_take t0.width (t0 :: rest) huw _ le_rfl
    rw [List.take_length] at hfull
    rw [hfull]
    ring
  · rw [pasteTiles_height, new_height]
  · intro i hi px py hpx hpy
    have htake : (((t0 :: rest).take i).map Image.width).sum = i * t0.width :=
      sum_width_take t0.width (t0 :: rest) huw i (by omega)
    have hwi : ((t0 :: rest).get ⟨i, hi⟩).width = t0.width :=
      huw _ (List.get_mem _ _ _)
    have := pasteTiles_pix_get t0.width (t0 :: rest)
      (Image.new (t0.width * (t0 :: rest).length) t0.height) 0 i hi px py
      (by omega) hpx hpy
    rw [htake]
    simpa using this

/-- Witness for C3's amended statement: two equal-width 2×2 tiles. -/
theorem assemble_uniform_width_layout_witness :
    ∃ a, assemble [t22, u22] = .ok a ∧
      a.width = ([t22, u22].map Image.width).sum ∧ a.height = t22.height := by
  obtain ⟨a, h1, h2, h3, _⟩ := assemble_uniform_width_layout t22 [u22] (by decide)
  exact ⟨a, h1, h2, h3⟩

/-- C5: the external-tool invocation builds the fixed, deterministic
argument list `[toktx, --genmipmap, --t2, outputPath, atlasPath]` — full
mip-chain generation (the unused `MAX_MIPS` never adds a `--levels`
limit), the KTX2 container version flag, then the output path and the
single atlas input; `subprocess.run(cmd, check=True)` is synchronous and
turns every non-zero exit code into a `CalledProcessError` carrying the
full command line and the exit code, while exit code 0 returns normally. -/
theorem toktx_invocation (rc : Int) :
    cmd = [TOKTX, "--genmipmap", "--t2", ATLAS_KTX2, ATLAS_PNG] ∧
    (subprocessRun cmd true rc = .ok () ↔ rc = 0) ∧
    (rc ≠ 0 → subprocessRun cmd true rc = .error ⟨rc, cmd⟩) := by
  refine ⟨rfl, ?_, ?_⟩
  · by_cases h : rc = 0 <;> simp [subprocessRun, h]
  · intro h
    simp [subprocessRun, h]

/-- Witness for C5 at exit codes 1 (failure) and 0 (success). -/
theorem toktx_invocation_witness :
    subprocessRun cmd true 1 = .error ⟨1, cmd⟩ ∧
    subprocessRun cmd true 0 = .ok () :=
  ⟨(toktx_invocation 1).2.2 (by decide), ((toktx_invocation 0).2.1).mpr rfl⟩

/-- C7: when some tile's height differs from the first tile's height,
`assemble` raises no error (the embedding's error type has no layout
failure at all): it still returns an atlas whose height is the first
tile's height (and width `firstWidth × count`), so mismatched content is
silently clipped or underfills instead of being rejected. -/
theorem assemble_no_height_check (t0 : Image) (rest : List Image)
    (_hmis : ∃ t ∈ rest, t.height ≠ t0.height) :
    ∃ a, assemble (t0 :: rest) = .ok a ∧ a.height = t0.height ∧
      a.width = t0.width * (t0 :: rest).length := by
  refine ⟨_, rfl, ?_, ?_⟩
  · rw [pasteTiles_height, new_height]
  · rw [pasteTiles_width, new_width]

/-- Witness for C7: the 2×4 first tile with a 2×2 second tile — heights
differ, assembly still succeeds at the first tile's height 4. -/
theorem assemble_no_height_check_witness :
    ∃ a, assemble [m24, t22] = .ok a ∧ a.height = m24.height ∧
      a.width = m24.width * [m24, t22].length :=
  assemble_no_height_check m24 [t22] (by decide)

/-- C9: the atlas is sized and stepped from the FIRST padded tile alone:
width `firstWidth × count`, height the first tile's height, tile `i`
pasted at offset `i × firstWidth` whatever the other widths are.  A tile's
columns beyond `firstWidth` fall into the next slot and are overwritten by
the next paste (the placement equation holds for the next tile on those
columns); when no tile is wider than the first, columns of a slot beyond
its own tile's width stay the transparent fill `(0,0,0,0)`. -/
theorem assemble_first_tile_layout (t0 : Image) (rest : List Image) :
    ∃ a, assemble (t0 :: rest) = .ok a ∧
      a.width = t0.width * (t0 :: rest).length ∧
      a.height = t0.height ∧
      (∀ i (hi : i < (t0 :: rest).length) (px py : Nat),
        px < t0.width → px < ((t0 :: rest).get ⟨i, hi⟩).width →
        py < ((t0 :: rest).get ⟨i, hi⟩).height →
        a.pix (i * t0.width + px) py = ((t0 :: rest).get ⟨i, hi⟩).pix px py) ∧
      ((∀ t ∈ t0 :: rest, t.width ≤ t0.width) →
        ∀ i (hi : i < (t0 :: rest).length) (px py : Nat),
          ((t0 :: rest).get ⟨i, hi⟩).width ≤ px → px < t0.width →
          a.pix (i * t0.width + px) py = (0, 0, 0, 0)) := by
  refine ⟨_, rfl, ?_, ?_, ?_, ?_⟩
  · rw [pasteTiles_width, new_width]
  · rw [pasteTiles_height, new_height]
  · intro i hi px py h1 h2 h3
    have := pasteTiles_pix_get t0.width (t0 :: rest)
      (Image.new (t0.width * (t0 :: rest).length) t0.height) 0 i hi px py h1 h2 h3
    simpa using this
  · intro hall i hi px py h1 h2
    have := pasteTiles_pix_gap t0.width (t0 :: rest)
      (Image.new (t0.width * (t0 :: rest).length) t0.height) 0 i hi px py hall h1 h2
    simpa using this

/-- Witness for C9: first tile 3×2, second tile 2×2 (narrower): tile 0
visible at column 1, tile 1 pasted at offset `1 × 3 = 3`, and slot 1's
column 5 (beyond the 2-wide second tile) stays transparent. -/
theorem assemble_first_tile_layout_witness :
    ∃ a, assemble [wA, wB] = .ok a ∧ a.pix 1 0 = wA.pix 1 0 ∧
      a.pix 3 0 = wB.pix 0 0 ∧ a.pix 5 1 = (0, 0, 0, 0) := by
  obtain ⟨a, ha, _, _, hplace, hgap⟩ := assemble_first_tile_layout wA [wB]
  refine ⟨a, ha, ?_, ?_, ?_⟩
  · have := hplace 0 (by decide) 1 0 (by decide) (by decide) (by decide)
    simpa using this
  · have := hplace 1 (by decide) 0 0 (by decide) (by decide) (by decide)
    simpa using this
  · have := hgap (by decide) 1 (by decide) 2 1 (by decide) (by decide)
    simpa using this

/-- C10: on the empty tile list the pipeline neither produces an empty
atlas nor a clean error: the padding loop is skipped, and atlas assembly
fails with the out-of-bounds index access `padded_tiles[0]` while reading
the first padded tile's size — after `os.makedirs` has already created
the output directory (it is in the effect trace), and before any atlas
save or tool run. -/
theorem empty_tiles_index_error (P : Nat) :
    script [] P = ([Effect.makeOutDir], .error .indexError) := rfl

end PaddedKtx
